import Mathlib

/-!
Shallow embedding of the Spoiler_detection pipeline (src/code.ipynb).

The notebook builds a spoiler classifier for IMDB reviews in five stages:
join and filter the reviews/movies tables, extract per-review features with
spaCy over a small thread pool, min-max scale the numeric columns, split and
TF-IDF-vectorize, then train and evaluate an MLP.  The definitions below
translate the notebook's own code; calls into pandas, scikit-learn and spaCy
are translated from the documented behaviour of the exact routine the
notebook invokes (inner merge, MinMaxScaler's zero-range guard, stratified
test-count allocation, TfidfVectorizer's train-only vocabulary).
-/

namespace SpoilerDetection

/-- A movie-metadata row: `movie_id` plus the raw `release_date` string as it
appears in `IMDB_movie_details.json` before any datetime conversion. -/
structure MovieRecord where
  movie_id : String
  release_date : String
deriving DecidableEq

/-- A review row of `IMDB_reviews.json`: the key, the review timestamp
(in days, after `pd.to_datetime`), the two text fields and the label. -/
structure ReviewRecord where
  movie_id : String
  review_date : Int
  review_summary : String
  review_text : String
  is_spoiler : Bool
deriving DecidableEq

/-- The notebook's `filter_valid_release_dates`: keeps exactly the rows whose
`release_date` string has 10 characters
(`mask = (dataframe['release_date'].str.len() == 10)`). -/
def filter_valid_release_dates (dataframe : List MovieRecord) : List MovieRecord :=
  dataframe.filter (fun row => row.release_date.length == 10)

/-- The notebook's `pd.merge(df_reviews, df_movies, on='movie_id')`: `pd.merge`
with default `how='inner'` emits one output row per (review, movie) pair
agreeing on `movie_id`; reviews without a matching movie produce no row and
raise no error. -/
def merge (df_reviews : List ReviewRecord) (df_movies : List MovieRecord) :
    List (ReviewRecord × MovieRecord) :=
  df_reviews.flatMap (fun r =>
    (df_movies.filter (fun m => m.movie_id == r.movie_id)).map (fun m => (r, m)))

/-! ## Feature extractor (notebook Step 4, `preprocess`)

A spaCy token is modelled by the attributes `preprocess` reads; part-of-speech
and entity-type attributes are the numeric ids of spaCy's symbol table (only
their distinctness matters here). -/

/-- The spaCy token attributes consumed by `preprocess`. -/
structure Token where
  lemma_ : String
  is_stop : Bool
  is_punct : Bool
  pos : Nat
  ent_type : Nat
deriving DecidableEq

/-- Numeric id of `spacy.symbols.NOUN`. -/
def NOUN : Nat := 92

/-- Numeric id of `spacy.symbols.VERB`. -/
def VERB : Nat := 100

/-- Numeric id of `spacy.symbols.ADJ`. -/
def ADJ : Nat := 84

/-- Numeric id of `spacy.symbols.PERSON`. -/
def PERSON : Nat := 380

/-- Numeric id of `spacy.symbols.ORG`. -/
def ORG : Nat := 383

/-- Numeric id of `spacy.symbols.GPE`. -/
def GPE : Nat := 384

/-- Numeric id of `spacy.symbols.DATE`. -/
def DATE : Nat := 391

/-- One counting step of spaCy's `Doc.count_by`: add one occurrence of key `k`
to an association list of counts. -/
def bump : List (Nat × Nat) → Nat → List (Nat × Nat)
  | [], k => [(k, 1)]
  | (k0, v) :: rest, k =>
    if k0 = k then (k0, v + 1) :: rest else (k0, v) :: bump rest k

/-- spaCy's `doc.count_by(attr)`: a dictionary mapping each attribute value
occurring in the document to its number of occurrences. -/
def count_by (vals : List Nat) : List (Nat × Nat) :=
  vals.foldl bump []

/-- Python's `dict.get(key, default)` on an association list of counts. -/
def dictGet : List (Nat × Nat) → Nat → Nat → Nat
  | [], _, dflt => dflt
  | (k0, v) :: rest, k, dflt => if k0 = k then v else dictGet rest k dflt

/-- One entry of the heterogeneous Python list returned by `preprocess`
(ints for days and the seven counts, a string for the cleaned tokens). -/
inductive FVal where
  | num (n : Int)
  | str (s : String)
deriving DecidableEq

/-- The notebook's `preprocess(text, days)`, with the spaCy call `nlp(text)`
already performed: from the token stream it counts POS and entity-type
occurrences over the whole document (`doc.count_by`), builds the cleaned
token string from the lemmas of the non-stop, non-punctuation tokens joined
by single spaces, and returns `[days] + seven counts + [tokens]` in the
insertion order of the `pos_ner_counts` dict. -/
def preprocess (doc : List Token) (days : Int) : List FVal :=
  let pos_counts := count_by (doc.map (fun t => t.pos))
  let entity_counts := count_by (doc.map (fun t => t.ent_type))
  let processed_text := (doc.filter (fun t => !t.is_stop && !t.is_punct)).map (fun t => t.lemma_)
  let tokens := String.intercalate " " processed_text
  let pos_ner_counts : List Nat :=
    [dictGet pos_counts NOUN 0, dictGet pos_counts VERB 0, dictGet pos_counts ADJ 0,
     dictGet entity_counts PERSON 0, dictGet entity_counts ORG 0,
     dictGet entity_counts GPE 0, dictGet entity_counts DATE 0]
  FVal.num days :: (pos_ner_counts.map (fun c => FVal.num (c : Int)) ++ [FVal.str tokens])

/-! ## Concurrent extraction harness (notebook Step 4)

The notebook submits `preprocess(text, days)` to a `ThreadPoolExecutor` in
input order (`zip(texts, days_since_review)`) and appends results in the
order `concurrent.futures.as_completed` yields them.  The completion order is
modelled as the list of future indices in the order they complete. -/

/-- The notebook's `future_results`: one submitted task per
`(text, days)` pair, in input order. -/
def future_results (texts : List (List Token)) (days_since_review : List Int) :
    List (List FVal) :=
  (texts.zip days_since_review).map (fun p => preprocess p.1 p.2)

/-- The notebook's `processed_texts` after the `as_completed` loop: results
appended in completion order.  `completion_order` lists the indices of the
futures in the order they complete (a permutation of the submission indices
in any real run; out-of-range indices simply contribute nothing). -/
def collect_results (texts : List (List Token)) (days_since_review : List Int)
    (completion_order : List Nat) : List (List FVal) :=
  completion_order.filterMap (fun i => (future_results texts days_since_review)[i]?)

/-- The positional pairing of feature rows with labels performed downstream:
`train_test_split(X, y, ...)` with `X = processed_texts` (completion order)
and `y = labels` (original dataframe order) associates the i-th collected row
with the i-th original label. -/
def xy_pairs (processed_texts : List (List FVal)) (labels : List Bool) :
    List (List FVal × Bool) :=
  processed_texts.zip labels

/-! ## Scaler (notebook `MinMaxScaler().fit_transform`, default range (0,1))

`fit_transform` computes each column's min and max over all rows it is given
(the notebook passes the whole post-extraction dataframe, before the split)
and maps `x` to `(x - min) / range`, where a zero range is replaced by 1 by
scikit-learn's `_handle_zeros_in_scale`, so a constant column maps to all
zeros instead of dividing by zero.  Columns are modelled independently, as
the scaler treats them. -/

/-- `np.min` of a column (0 on the empty column, which the scaler never
receives). -/
def colMin : List ℚ → ℚ
  | [] => 0
  | x :: xs => xs.foldl min x

/-- `np.max` of a column (0 on the empty column). -/
def colMax : List ℚ → ℚ
  | [] => 0
  | x :: xs => xs.foldl max x

/-- scikit-learn's `_handle_zeros_in_scale`: a zero range divides as 1. -/
def handle_zeros_in_scale (r : ℚ) : ℚ :=
  if r = 0 then 1 else r

/-- `MinMaxScaler().fit_transform` on one column: `(x - min) / range` with the
zero-range guard. -/
def minmax_scale_column (xs : List ℚ) : List ℚ :=
  xs.map (fun x => (x - colMin xs) / handle_zeros_in_scale (colMax xs - colMin xs))

/-- The notebook's order of operations for one numeric column: the whole
column is scaled first (Step 4.5), and only then does `train_test_split`
(Step 6) select the test rows, here given by their indices. -/
def scaled_test_column (xs : List ℚ) (test_index : List Nat) : List ℚ :=
  test_index.filterMap (fun i => (minmax_scale_column xs)[i]?)

/-! ## Splitter (notebook Step 6, `train_test_split(..., test_size=0.2,
random_state=42, stratify=y)`)

With `stratify=y`, scikit-learn delegates to `StratifiedShuffleSplit`: the
test set receives `ceil(0.2 * n)` rows, allocated to the classes (sorted
order, `False` before `True`) by `_approximate_mode`: each class gets the
floor of its proportional share, and the leftover draws go to the classes
with the largest fractional parts, the seeded rng breaking ties.  The
tie-break is modelled deterministically by class order (a stable sort); the
allocation below is otherwise the library's. -/

/-- Insertion of `a` into a sorted list under the Boolean order `le`. -/
def insertB {α : Type} (le : α → α → Bool) (a : α) : List α → List α
  | [] => [a]
  | b :: bs => if le a b then a :: b :: bs else b :: insertB le a bs

/-- Stable insertion sort under the Boolean order `le`. -/
def sortB {α : Type} (le : α → α → Bool) : List α → List α
  | [] => []
  | a :: as => insertB le a (sortB le as)

/-- `ceil(0.2 * n)`, the test-set size chosen by `_validate_shuffle_split`
for `test_size=0.2`. -/
def n_test_of (n : Nat) : Nat :=
  (n + 4) / 5

/-- scikit-learn's `_approximate_mode(class_counts, n_draws, rng)`: floors of
the proportional shares, plus one extra draw for the classes with the
largest remainders until `n_draws` are allocated (stable order standing in
for the rng tie-break, which cannot change the counts when remainders
differ or no extras are needed). -/
def approximate_mode (class_counts : List Nat) (n_draws : Nat) : List Nat :=
  let n := class_counts.sum
  if n = 0 then class_counts.map (fun _ => 0)
  else
    let floored := class_counts.map (fun c => c * n_draws / n)
    let need := n_draws - floored.sum
    let order := sortB
      (fun p q => Nat.ble (q.2 * n_draws % n) (p.2 * n_draws % n)) class_counts.enum
    let extras := (order.take need).map (fun p => p.1)
    class_counts.enum.map (fun p => p.2 * n_draws / n + if p.1 ∈ extras then 1 else 0)

/-- Per-class test-set sizes of the notebook's stratified split on the label
list `y` (class order `[False, True]`, as `np.unique` sorts them). -/
def stratified_test_counts (y : List Bool) : List Nat :=
  approximate_mode [y.count false, y.count true] (n_test_of y.length)

/-- Number of `True`-labelled records placed in the test partition. -/
def stratified_test_true (y : List Bool) : Nat :=
  (stratified_test_counts y).getD 1 0

/-! ## Vectorizer (notebook Step 7,
`TfidfVectorizer(ngram_range=(1, 3), max_df=0.9, max_features=100000)`)

The vectorizer re-tokenizes each stored token string with its default
analyzer (lowercase, maximal runs of word characters of length at least 2),
forms all 1- to 3-grams, fits a vocabulary on the training strings only
(dropping terms whose document frequency exceeds 0.9 of the training
documents, then keeping at most 100000 terms by descending corpus term
frequency, stable order standing in for the library's tie handling), and
maps a document to one weighted count per vocabulary term.  The idf weights
are irrational (logarithms), so they are carried as an abstract parameter:
every property proved below holds for all weightings, and the final l2
normalization maps an all-zero row to itself, so it is omitted. -/

/-- A word character of the default `token_pattern` `\w`. -/
def isWordChar (c : Char) : Bool :=
  c.isAlphanum || c == '_'

/-- Splits a character stream into maximal runs of word characters
(`acc` holds the current run, reversed). -/
def wordRunsAux : List Char → List Char → List String
  | [], [] => []
  | [], acc => [String.mk acc.reverse]
  | c :: cs, acc =>
    if isWordChar c then wordRunsAux cs (c :: acc)
    else if acc.isEmpty then wordRunsAux cs []
    else String.mk acc.reverse :: wordRunsAux cs []

/-- The default `TfidfVectorizer` analyzer: lowercase, then the maximal
word-character runs of length at least 2. -/
def analyze (s : String) : List String :=
  (wordRunsAux (s.data.map Char.toLower) []).filter (fun w => 2 ≤ w.length)

/-- All contiguous `n`-token subsequences of a token list. -/
def ngrams_of_len (toks : List String) (n : Nat) : List (List String) :=
  (List.range (toks.length + 1 - n)).map (fun i => (toks.drop i).take n)

/-- The vectorizer's terms for one document under `ngram_range=(1, 3)`:
all unigrams, bigrams and trigrams. -/
def build_ngrams (toks : List String) : List (List String) :=
  ngrams_of_len toks 1 ++ ngrams_of_len toks 2 ++ ngrams_of_len toks 3

/-- Number of fitted documents containing the term `t`. -/
def document_frequency (docs : List (List String)) (t : List String) : Nat :=
  docs.countP (fun d => (build_ngrams d).contains t)

/-- Total number of occurrences of the term `t` across the fitted corpus. -/
def corpus_frequency (docs : List (List String)) (t : List String) : Nat :=
  (docs.map (fun d => (build_ngrams d).count t)).sum

/-- The vocabulary fitted by `fit_transform` on the training documents:
the distinct 1- to 3-grams, with `max_df=0.9` removing terms in more than
90% of documents and `max_features=100000` capping the size by descending
corpus frequency. -/
def fit_vocabulary (docs : List (List String)) : List (List String) :=
  let n := docs.length
  let terms := (docs.flatMap build_ngrams).dedup
  let kept := terms.filter (fun t => 10 * document_frequency docs t ≤ 9 * n)
  (sortB (fun a b => Nat.ble (corpus_frequency docs b) (corpus_frequency docs a)) kept).take
    100000

/-- Number of occurrences of the vocabulary term `t` in a document. -/
def term_count (t : List String) (d : List String) : Nat :=
  (build_ngrams d).count t

/-- `transform` of one document against a fitted vocabulary: one entry per
vocabulary term, the term's count in the document times its idf weight. -/
def transform_row (vocab : List (List String)) (idf : List String → ℚ)
    (d : List String) : List ℚ :=
  vocab.map (fun t => (term_count t d : ℚ) * idf t)

/-- The notebook's vectorization step: the vocabulary is fitted on the
training token strings only (`fit_transform(X_train['tokens'])`) and the
same fitted vocabulary is applied, without refitting, to the test strings
(`transform(X_test['tokens'])`). -/
def tfidf_pipeline (train_docs test_docs : List String) (idf : List String → ℚ) :
    List (List ℚ) × List (List ℚ) :=
  let vocabulary := fit_vocabulary (train_docs.map analyze)
  (train_docs.map (fun s => transform_row vocabulary idf (analyze s)),
   test_docs.map (fun s => transform_row vocabulary idf (analyze s)))

/-! ## Concrete sample records used by the witnesses -/

/-- A one-token document whose lemma is `alpha`. -/
def docA : List Token :=
  [{ lemma_ := "alpha", is_stop := false, is_punct := false, pos := NOUN, ent_type := 0 }]

/-- A one-token document whose lemma is `beta`. -/
def docB : List Token :=
  [{ lemma_ := "beta", is_stop := false, is_punct := false, pos := NOUN, ent_type := 0 }]

/-- A sample movie with a well-formed, length-10 release date. -/
def movie_m1 : MovieRecord :=
  { movie_id := "m1", release_date := "2020-01-01" }

/-- A sample movie with a malformed, length-8 release date. -/
def movie_m2 : MovieRecord :=
  { movie_id := "m2", release_date := "2020-1-1" }

/-- Sample movie table: one valid and one malformed release date. -/
def sample_movies : List MovieRecord :=
  [movie_m1, movie_m2]

/-- A sample review of `movie_m1`. -/
def review_m1 : ReviewRecord :=
  { movie_id := "m1", review_date := 3, review_summary := "s1", review_text := "t1",
    is_spoiler := true }

/-- A sample review of `movie_m2`. -/
def review_m2 : ReviewRecord :=
  { movie_id := "m2", review_date := 4, review_summary := "s2", review_text := "t2",
    is_spoiler := false }

/-- A sample review matching no movie in the sample movie table. -/
def review_m9 : ReviewRecord :=
  { movie_id := "m9", review_date := 5, review_summary := "s3", review_text := "t3",
    is_spoiler := true }

/-- Sample review table: one review of each sample movie and one review with
no matching movie. -/
def sample_reviews : List ReviewRecord :=
  [review_m1, review_m2, review_m9]

end SpoilerDetection

namespace SpoilerDetection

/-! ## Helper lemmas -/

/-- Looking a key up after one `bump` reads one more occurrence of that key
and leaves other keys unchanged. -/
theorem dictGet_bump (d : List (Nat × Nat)) (a k : Nat) :
    dictGet (bump d a) k 0 = dictGet d k 0 + (if a = k then 1 else 0) := by
  induction d with
  | nil => by_cases h : a = k <;> simp [bump, dictGet, h]
  | cons hd tl ih =>
      obtain ⟨k0, v⟩ := hd
      by_cases h1 : k0 = a
      · by_cases h2 : k0 = k
        · have ha : a = k := h1.symm.trans h2
          simp [bump, dictGet, h1, h2, ha]
        · have ha : ¬a = k := fun hh => h2 (h1.trans hh)
          simp [bump, dictGet, h1, h2, ha]
      · by_cases h2 : k0 = k
        · have ha : ¬a = k := fun hh => h1 (h2.trans hh.symm)
          have hka : ¬k = a := fun hh => h1 (h2.trans hh)
          simp [bump, dictGet, h2, ha, hka]
        · simp [bump, dictGet, h1, h2, ih]

/-- `doc.count_by(attr).get(key, 0)` is the number of occurrences of `key`
among the attribute values of the whole document. -/
theorem dictGet_count_by (l : List Nat) (k : Nat) :
    dictGet (count_by l) k 0 = l.count k := by
  suffices h : ∀ d, dictGet (l.foldl bump d) k 0 = dictGet d k 0 + l.count k by
    simpa [count_by, dictGet] using h []
  induction l with
  | nil => intro d; simp
  | cons a l ih =>
      intro d
      simp only [List.foldl_cons, ih, dictGet_bump, List.count_cons]
      by_cases h : a = k <;> simp [h] <;> omega

/-- The full feature list produced by `preprocess`, with every dictionary
lookup rewritten as a direct occurrence count over the unfiltered stream. -/
theorem preprocess_eq (doc : List Token) (days : Int) :
    preprocess doc days =
      [FVal.num days,
       FVal.num ((doc.map (fun t => t.pos)).count NOUN : Nat),
       FVal.num ((doc.map (fun t => t.pos)).count VERB : Nat),
       FVal.num ((doc.map (fun t => t.pos)).count ADJ : Nat),
       FVal.num ((doc.map (fun t => t.ent_type)).count PERSON : Nat),
       FVal.num ((doc.map (fun t => t.ent_type)).count ORG : Nat),
       FVal.num ((doc.map (fun t => t.ent_type)).count GPE : Nat),
       FVal.num ((doc.map (fun t => t.ent_type)).count DATE : Nat),
       FVal.str (String.intercalate " "
         ((doc.filter (fun t => !t.is_stop && !t.is_punct)).map (fun t => t.lemma_)))] := by
  simp [preprocess, dictGet_count_by]

/-- Position 0 of a `preprocess` result always holds the `days` argument. -/
theorem preprocess_head (doc : List Token) (days : Int) :
    (preprocess doc days)[0]? = some (FVal.num days) := rfl

/-- Position 8 of a `preprocess` result always holds the cleaned token string
of the same document. -/
theorem preprocess_last (doc : List Token) (days : Int) :
    (preprocess doc days)[8]? = some (FVal.str (String.intercalate " "
      ((doc.filter (fun t => !t.is_stop && !t.is_punct)).map (fun t => t.lemma_)))) := rfl

/-- Folding `min` only lowers the accumulator. -/
theorem foldl_min_le_init (l : List ℚ) (a : ℚ) : l.foldl min a ≤ a := by
  induction l generalizing a with
  | nil => simp
  | cons b l ih => exact le_trans (ih (min a b)) (min_le_left a b)

/-- Folding `min` is below every list element. -/
theorem foldl_min_le_mem {l : List ℚ} {y : ℚ} (h : y ∈ l) (a : ℚ) :
    l.foldl min a ≤ y := by
  induction l generalizing a with
  | nil => cases h
  | cons b l ih =>
      rcases List.mem_cons.mp h with rfl | hy
      · exact le_trans (foldl_min_le_init l (min a y)) (min_le_right a y)
      · exact ih hy (min a b)

/-- The column minimum is below every column entry. -/
theorem colMin_le {xs : List ℚ} {y : ℚ} (h : y ∈ xs) : colMin xs ≤ y := by
  cases xs with
  | nil => cases h
  | cons x l =>
      rcases List.mem_cons.mp h with rfl | hy
      · exact foldl_min_le_init l y
      · exact foldl_min_le_mem hy x

/-- Folding `max` only raises the accumulator. -/
theorem init_le_foldl_max (l : List ℚ) (a : ℚ) : a ≤ l.foldl max a := by
  induction l generalizing a with
  | nil => simp
  | cons b l ih => exact le_trans (le_max_left a b) (ih (max a b))

/-- Folding `max` is above every list element. -/
theorem mem_le_foldl_max {l : List ℚ} {y : ℚ} (h : y ∈ l) (a : ℚ) :
    y ≤ l.foldl max a := by
  induction l generalizing a with
  | nil => cases h
  | cons b l ih =>
      rcases List.mem_cons.mp h with rfl | hy
      · exact le_trans (le_max_right a y) (init_le_foldl_max l (max a y))
      · exact ih hy (max a b)

/-- The column maximum is above every column entry. -/
theorem le_colMax {xs : List ℚ} {y : ℚ} (h : y ∈ xs) : y ≤ colMax xs := by
  cases xs with
  | nil => cases h
  | cons x l =>
      rcases List.mem_cons.mp h with rfl | hy
      · exact init_le_foldl_max l y
      · exact mem_le_foldl_max hy x

/-- A Boolean list's `False` and `True` counts sum to its length. -/
theorem count_false_add_count_true (y : List Bool) :
    y.count false + y.count true = y.length := by
  induction y with
  | nil => rfl
  | cons a l ih => cases a <;> simp [List.count_cons] <;> omega

/-! ## Claim theorems -/

/-- C1: the collection loop appends results in completion order and the
splitter pairs them positionally with the labels kept in original order; no
identifier re-associates a result with its label.  At the concrete failing
input (two records, the second task completing first), the first collected
row is record B's features paired with record A's label `true`, although
record B's own label is `false` — refuting the claimed re-association. -/
theorem as_completed_positional_label_mismatch :
    xy_pairs (collect_results [docA, docB] [5, 7] [1, 0]) [true, false] =
      [(preprocess docB 7, true), (preprocess docA 5, false)] ∧
    preprocess docB 7 ≠ preprocess docA 5 :=
  ⟨rfl, by decide⟩

/-- C2: every value of the test partition of a scaled numeric column equals
`(x - min) / (max - min)` for its original entry `x`, where the minimum and
maximum are those of the entire post-extraction column — test rows included —
because `fit_transform` runs on the full column before `train_test_split`
selects the test rows; no refit on the training rows occurs. -/
theorem scaled_test_uses_full_min_max (xs : List ℚ) (test_index : List Nat) (v : ℚ)
    (hv : v ∈ scaled_test_column xs test_index) :
    ∃ x ∈ xs, v = (x - colMin xs) / handle_zeros_in_scale (colMax xs - colMin xs) := by
  rcases List.mem_filterMap.mp hv with ⟨i, _, hi⟩
  have hmem : v ∈ minmax_scale_column xs := List.getElem?_mem hi
  rcases List.mem_map.mp hmem with ⟨x, hx, hxv⟩
  exact ⟨x, hx, hxv.symm⟩

/-- Witness for C2: in the column `[0, 1]` with test row index 1, the test
value `1` is the full-column scaling of the original entry. -/
theorem scaled_test_uses_full_min_max_witness :
    ∃ x ∈ [(0 : ℚ), 1],
      (1 : ℚ) = (x - colMin [(0 : ℚ), 1]) /
        handle_zeros_in_scale (colMax [(0 : ℚ), 1] - colMin [(0 : ℚ), 1]) :=
  scaled_test_uses_full_min_max [0, 1] [1] 1
    (by norm_num [scaled_test_column, minmax_scale_column, colMin, colMax,
      handle_zeros_in_scale])

/-- C3: the vectorizer's vocabulary is fitted on the training token strings
only and applied unchanged to the test strings; a test token string none of
whose 1- to 3-grams occur in the fitted vocabulary transforms to an all-zero
row (of the vocabulary's width), for every idf weighting — no error is
possible, `transform` being a total function. -/
theorem tfidf_oov_row_zero (train_docs test_docs : List String) (idf : List String → ℚ)
    (s : String) (hs : s ∈ test_docs)
    (hoov : ∀ g ∈ build_ngrams (analyze s), g ∉ fit_vocabulary (train_docs.map analyze)) :
    ∃ row ∈ (tfidf_pipeline train_docs test_docs idf).2,
      row = List.replicate (fit_vocabulary (train_docs.map analyze)).length 0 := by
  refine ⟨transform_row (fit_vocabulary (train_docs.map analyze)) idf (analyze s), ?_, ?_⟩
  · simp only [tfidf_pipeline]
    exact List.mem_map_of_mem _ hs
  · rw [List.eq_replicate_iff]
    refine ⟨by simp [transform_row], ?_⟩
    intro b hb
    rcases List.mem_map.mp hb with ⟨t, ht, hbt⟩
    have hcount : term_count t (analyze s) = 0 := by
      by_contra hc
      have hpos : 0 < (build_ngrams (analyze s)).count t := Nat.pos_of_ne_zero hc
      exact hoov t (List.count_pos_iff.mp hpos) ht
    rw [← hbt, hcount]
    simp

/-- Witness for C3: training strings `aa bb` and `ee ff`, test string
`cc dd` sharing no n-gram with the fitted vocabulary, unit idf weights. -/
theorem tfidf_oov_row_zero_witness :
    ∃ row ∈ (tfidf_pipeline ["aa bb", "ee ff"] ["cc dd"] (fun _ => 1)).2,
      row = List.replicate (fit_vocabulary (["aa bb", "ee ff"].map analyze)).length 0 :=
  tfidf_oov_row_zero ["aa bb", "ee ff"] ["cc dd"] (fun _ => 1) "cc dd" (by decide)
    (by decide)

/-- C4 counterexample: in the zero-variance column `[5, 5]` row 0 holds the
pre-scaling column maximum, yet its scaled value is `0`, not `1` — refuting
the claim's unconditional `maximum maps to exactly 1`. -/
theorem minmax_degenerate_max_not_one :
    ([(5 : ℚ), 5])[0]? = some (colMax [(5 : ℚ), 5]) ∧
    (minmax_scale_column [(5 : ℚ), 5])[0]? = some 0 ∧ (0 : ℚ) ≠ 1 := by
  refine ⟨?_, ?_, by norm_num⟩
  · norm_num [colMax]
  · norm_num [minmax_scale_column, colMin, colMax, handle_zeros_in_scale]

/-- C4 amended: after min-max scaling every value of a numeric column lies in
`[0, 1]` and every row that held the pre-scaling minimum maps to exactly `0`;
every row that held the pre-scaling maximum maps to exactly `1` provided the
column is not of zero variance (when `max = min` every entry maps to `0`,
the row holding the maximum included). -/
theorem minmax_scale_bounds (xs : List ℚ) :
    (∀ v ∈ minmax_scale_column xs, 0 ≤ v ∧ v ≤ 1) ∧
    (∀ i : Nat, xs[i]? = some (colMin xs) → (minmax_scale_column xs)[i]? = some 0) ∧
    (colMin xs < colMax xs →
      ∀ i : Nat, xs[i]? = some (colMax xs) → (minmax_scale_column xs)[i]? = some 1) := by
  refine ⟨?_, ?_, ?_⟩
  · intro v hv
    rcases List.mem_map.mp hv with ⟨x, hx, hxv⟩
    rw [← hxv]
    have hmin : colMin xs ≤ x := colMin_le hx
    have hmax : x ≤ colMax xs := le_colMax hx
    by_cases h0 : colMax xs - colMin xs = 0
    · have hx0 : x = colMin xs := le_antisymm (by linarith) hmin
      rw [handle_zeros_in_scale, if_pos h0, hx0]
      norm_num
    · have hpos : 0 < colMax xs - colMin xs :=
        lt_of_le_of_ne (by linarith) (Ne.symm h0)
      rw [handle_zeros_in_scale, if_neg h0]
      constructor
      · exact div_nonneg (by linarith) (le_of_lt hpos)
      · rw [div_le_one hpos]
        linarith
  · intro i hi
    rw [minmax_scale_column, List.getElem?_map, hi]
    simp
  · intro hlt i hi
    rw [minmax_scale_column, List.getElem?_map, hi]
    have h0 : colMax xs - colMin xs ≠ 0 := sub_ne_zero.mpr (ne_of_gt hlt)
    simp [handle_zeros_in_scale, h0]

/-- Witness for C4 (amended): in the column `[1, 3]` the minimum row scales
to exactly `0` and the maximum row to exactly `1`. -/
theorem minmax_scale_bounds_witness :
    (minmax_scale_column [(1 : ℚ), 3])[0]? = some 0 ∧
    (minmax_scale_column [(1 : ℚ), 3])[1]? = some 1 :=
  ⟨(minmax_scale_bounds [1, 3]).2.1 0 (by norm_num [colMin]),
   (minmax_scale_bounds [1, 3]).2.2 (by norm_num [colMin, colMax]) 1
     (by norm_num [colMax])⟩

/-- C5: on a zero-variance column (`max = min`) the scaler's zero-range guard
replaces the divisor by `1`, so no division by zero occurs and every entry of
the scaled column is deterministically `0`. -/
theorem minmax_scale_degenerate (xs : List ℚ) (h : colMax xs = colMin xs) :
    ∀ v ∈ minmax_scale_column xs, v = 0 := by
  intro v hv
  rcases List.mem_map.mp hv with ⟨x, hx, hxv⟩
  rw [← hxv]
  have h1 : colMin xs ≤ x := colMin_le hx
  have h2 : x ≤ colMax xs := le_colMax hx
  have hx0 : x = colMin xs := le_antisymm (h ▸ h2) h1
  rw [hx0, h]
  simp [handle_zeros_in_scale]

/-- Witness for C5: the constant column `[3, 3]` contains the scaled value
`0`, and that value is `0`. -/
theorem minmax_scale_degenerate_witness :
    (0 : ℚ) ∈ minmax_scale_column [(3 : ℚ), 3] ∧ (0 : ℚ) = 0 :=
  ⟨by norm_num [minmax_scale_column, colMin, colMax, handle_zeros_in_scale],
   minmax_scale_degenerate [3, 3] (by norm_num [colMin, colMax]) 0
     (by norm_num [minmax_scale_column, colMin, colMax, handle_zeros_in_scale])⟩

/-- C6: `filter_valid_release_dates` retains a movie record exactly when its
release-date string has 10 characters — any length-10 string, with no date
parsing — and a record with a string of any other length is dropped before
the join, so no merged row carries it. -/
theorem release_date_filter_spec (df_movies : List MovieRecord) (m : MovieRecord)
    (df_reviews : List ReviewRecord) :
    (m ∈ filter_valid_release_dates df_movies ↔
      m ∈ df_movies ∧ m.release_date.length = 10) ∧
    (m.release_date.length ≠ 10 →
      ∀ row ∈ merge df_reviews (filter_valid_release_dates df_movies), row.2 ≠ m) := by
  constructor
  · simp [filter_valid_release_dates, List.mem_filter]
  · intro hm row hrow hcontra
    rcases List.mem_flatMap.mp hrow with ⟨r, _, hr2⟩
    rcases List.mem_map.mp hr2 with ⟨mm, hmm, heq⟩
    have hrow2 : row.2 = mm := by rw [← heq]
    have hmem2 : m ∈ filter_valid_release_dates df_movies := by
      rw [← hcontra, hrow2]
      exact List.mem_of_mem_filter hmm
    have h10 : m.release_date.length = 10 := by
      simpa using (List.mem_filter.mp hmem2).2
    exact hm h10

/-- Witness for C6: the length-9 date `2020-1-1` is not retained (the filter
criterion decides it), and the merged sample table contains no row derived
from that movie — its concrete merged row comes from `m1`. -/
theorem release_date_filter_spec_witness :
    (movie_m2 ∈ filter_valid_release_dates sample_movies ↔
      movie_m2 ∈ sample_movies ∧ movie_m2.release_date.length = 10) ∧
    (review_m1, movie_m1).2 ≠ movie_m2 :=
  ⟨(release_date_filter_spec sample_movies movie_m2 sample_reviews).1,
   (release_date_filter_spec sample_movies movie_m2 sample_reviews).2 (by decide)
     (review_m1, movie_m1) (by decide)⟩

/-- C7: the merge is an inner join — every merged row's review and movie
agree on `movie_id`, that identifier occurs in the movie table, and a review
whose identifier is absent from the movie table appears in no merged row
(it is silently dropped; `merge` is total, so no error is raised). -/
theorem merge_inner_join_spec (df_reviews : List ReviewRecord)
    (df_movies : List MovieRecord) :
    (∀ row ∈ merge df_reviews df_movies,
        row.1.movie_id = row.2.movie_id ∧
        row.1.movie_id ∈ df_movies.map (fun m => m.movie_id)) ∧
    (∀ r ∈ df_reviews, r.movie_id ∉ df_movies.map (fun m => m.movie_id) →
        ∀ row ∈ merge df_reviews df_movies, row.1 ≠ r) := by
  constructor
  · intro row hrow
    rcases List.mem_flatMap.mp hrow with ⟨r, _, hr2⟩
    rcases List.mem_map.mp hr2 with ⟨mm, hmm, heq⟩
    have hid : mm.movie_id = r.movie_id := by
      simpa using (List.mem_filter.mp hmm).2
    have hmm2 : mm ∈ df_movies := List.mem_of_mem_filter hmm
    have h1 : row.1 = r := by rw [← heq]
    have h2 : row.2 = mm := by rw [← heq]
    rw [h1, h2, ← hid]
    exact ⟨rfl, List.mem_map_of_mem _ hmm2⟩
  · intro r _ hnot row hrow hcontra
    rcases List.mem_flatMap.mp hrow with ⟨r0, _, hr2⟩
    rcases List.mem_map.mp hr2 with ⟨mm, hmm, heq⟩
    have hid : mm.movie_id = r0.movie_id := by
      simpa using (List.mem_filter.mp hmm).2
    have hmm2 : mm ∈ df_movies := List.mem_of_mem_filter hmm
    have h1 : row.1 = r0 := by rw [← heq]
    have hr0 : r0 = r := by rw [← h1, hcontra]
    refine hnot ?_
    rw [← hr0, ← hid]
    exact List.mem_map_of_mem _ hmm2

/-- Witness for C7: in the sample tables, the merged row for `m1` agrees on
its key, which occurs in the movie table, and the review of the unmatched
movie `m9` is not the review of that merged row. -/
theorem merge_inner_join_spec_witness :
    ((review_m1, movie_m1).1.movie_id = (review_m1, movie_m1).2.movie_id ∧
      (review_m1, movie_m1).1.movie_id ∈ sample_movies.map (fun m => m.movie_id)) ∧
    (review_m1, movie_m1).1 ≠ review_m9 :=
  ⟨(merge_inner_join_spec sample_reviews sample_movies).1 (review_m1, movie_m1)
     (by decide),
   (merge_inner_join_spec sample_reviews sample_movies).2 review_m9 (by decide)
     (by decide) (review_m1, movie_m1) (by decide)⟩

/-- C8: `preprocess` returns the ordered 9-tuple of days, the three POS
counts (noun, verb, adjective), the four entity counts (person, organization,
geopolitical entity, date), and the cleaned token string — the counts taken
over the whole unfiltered token stream, the token string being the lemmas of
the non-stop, non-punctuation tokens joined by single spaces. -/
theorem preprocess_feature_vector (doc : List Token) (days : Int) :
    preprocess doc days =
      [FVal.num days,
       FVal.num ((doc.map (fun t => t.pos)).count NOUN : Nat),
       FVal.num ((doc.map (fun t => t.pos)).count VERB : Nat),
       FVal.num ((doc.map (fun t => t.pos)).count ADJ : Nat),
       FVal.num ((doc.map (fun t => t.ent_type)).count PERSON : Nat),
       FVal.num ((doc.map (fun t => t.ent_type)).count ORG : Nat),
       FVal.num ((doc.map (fun t => t.ent_type)).count GPE : Nat),
       FVal.num ((doc.map (fun t => t.ent_type)).count DATE : Nat),
       FVal.str (String.intercalate " "
         ((doc.filter (fun t => !t.is_stop && !t.is_punct)).map (fun t => t.lemma_)))] :=
  preprocess_eq doc days

/-- C10: whatever order the pool completes in, every collected row is the
`preprocess` output of one submitted `(text, days)` pair, so the days value
at position 0 and the cleaned token string at position 8 of a row always come
from the same original record — the tuple itself carries the pairing. -/
theorem collect_results_days_tokens (texts : List (List Token))
    (days_since_review : List Int) (completion_order : List Nat) (row : List FVal)
    (hrow : row ∈ collect_results texts days_since_review completion_order) :
    ∃ p ∈ texts.zip days_since_review,
      row = preprocess p.1 p.2 ∧ row[0]? = some (FVal.num p.2) ∧
      row[8]? = some (FVal.str (String.intercalate " "
        ((p.1.filter (fun t => !t.is_stop && !t.is_punct)).map (fun t => t.lemma_)))) := by
  rcases List.mem_filterMap.mp hrow with ⟨i, _, hi⟩
  have hmem : row ∈ future_results texts days_since_review := List.getElem?_mem hi
  rcases List.mem_map.mp hmem with ⟨p, hp, hpe⟩
  refine ⟨p, hp, hpe.symm, ?_, ?_⟩
  · rw [← hpe]
    exact preprocess_head p.1 p.2
  · rw [← hpe]
    exact preprocess_last p.1 p.2

/-- Witness for C10: with completion order `[1, 0]`, the first collected row
is record B's `preprocess` output, carrying B's days value 7 at position 0
and B's token string at position 8. -/
theorem collect_results_days_tokens_witness :
    ∃ p ∈ [docA, docB].zip [(5 : Int), 7],
      preprocess docB 7 = preprocess p.1 p.2 ∧
      (preprocess docB 7)[0]? = some (FVal.num p.2) ∧
      (preprocess docB 7)[8]? = some (FVal.str (String.intercalate " "
        ((p.1.filter (fun t => !t.is_stop && !t.is_punct)).map (fun t => t.lemma_)))) :=
  collect_results_days_tokens [docA, docB] [5, 7] [1, 0] (preprocess docB 7)
    (by
      have h : collect_results [docA, docB] [5, 7] [1, 0] =
          [preprocess docB 7, preprocess docA 5] := rfl
      rw [h]
      exact List.mem_cons_self _ _)

/-- C9: the notebook's stratified 80/20 split (`test_size=0.2`,
`random_state=42`, `stratify=y`) allocates test rows to the classes by
proportional share; for any 100 labels of which 60 are `True`, the test
partition receives a `True`-count within 1 of 12 (it is exactly 12, the
allocation having no fractional remainder). -/
theorem stratified_test_true_count (y : List Bool) (hlen : y.length = 100)
    (htrue : y.count true = 60) :
    11 ≤ stratified_test_true y ∧ stratified_test_true y ≤ 13 := by
  have hfalse : y.count false = 40 := by
    have := count_false_add_count_true y
    omega
  simp only [stratified_test_true, stratified_test_counts]
  rw [hlen, htrue, hfalse]
  decide

/-- Witness for C9: 60 `True` labels followed by 40 `False` labels. -/
theorem stratified_test_true_count_witness :
    11 ≤ stratified_test_true (List.replicate 60 true ++ List.replicate 40 false) ∧
    stratified_test_true (List.replicate 60 true ++ List.replicate 40 false) ≤ 13 :=
  stratified_test_true_count (List.replicate 60 true ++ List.replicate 40 false)
    (by decide) (by decide)

end SpoilerDetection
